import Mathlib

/-
Verification of the GTFS histórico processed→cleaned transformation
(src/gtfs_historico/transform.py) against its design description.

The pandas dataframe pipeline is shallowly embedded: a dataframe is a list
of rows carrying the pandas integer index, cell values of the raw input are
an inductive type covering None / NaN / strings / numbers / booleans,
numbers are rationals, and missing values are `Option.none`.  Every
definition follows the source line by line; the source location is cited
at each definition.
-/

set_option allowUnsafeReducibility true
attribute [semireducible] Rat.add Rat.sub Rat.mul Rat.inv Rat.div

namespace GtfsTransform

/-- Lexicographic comparison of character lists (Python string order, by code
point). -/
def cmpChars : List Char → List Char → Ordering
  | [], [] => .eq
  | [], _ :: _ => .lt
  | _ :: _, [] => .gt
  | a :: xs, b :: ys =>
      if a < b then .lt else if b < a then .gt else cmpChars xs ys

/-- Comparison on strings via their character data. -/
def cmpStr (a b : String) : Ordering := cmpChars a.data b.data

/-- Comparison on rationals. -/
def cmpQ (a b : ℚ) : Ordering := if a < b then .lt else if b < a then .gt else .eq

/-- Comparison on characters. -/
def cmpChar (a b : Char) : Ordering := if a < b then .lt else if b < a then .gt else .eq

/-- Comparison on an optional sort key, placing missing values last
(pandas sort_values with na_position="last"). -/
def cmpOpt {α : Type} (c : α → α → Ordering) : Option α → Option α → Ordering
  | Option.none, Option.none => .eq
  | Option.none, some _ => .gt
  | some _, Option.none => .lt
  | some a, some b => c a b

/-- A raw cell of the processed input table: Python None, float NaN, a string,
a number (modelled as a rational) or a boolean. -/
inductive PyVal where
  | vnone
  | vnan
  | vstr (s : String)
  | vnum (q : ℚ)
  | vbool (b : Bool)
deriving DecidableEq

/-- Value of a run of decimal digits; fails on an empty or non-digit run. -/
def parseDigits (cs : List Char) : Option ℕ :=
  if cs ≠ [] ∧ cs.all Char.isDigit then
    some (cs.foldl (fun a c => a * 10 + (c.toNat - 48)) 0)
  else Option.none

/-- Digits with an optional single decimal point: the integer digits before
it and the fractional digits after it.  Fails when a second point or any
non-digit appears. -/
def parseUnsignedChars (cs : List Char) : Option ℚ :=
  match cs.span (fun c => c ≠ '.') with
  | (ip, []) => (parseDigits ip).map (fun n => (n : ℚ))
  | (ip, _ :: fp) =>
      match parseDigits ip, parseDigits fp with
      | some n, some f =>
          some ((n : ℚ) + (f : ℚ) / ((10 : ℚ) ^ fp.length))
      | _, _ => Option.none

/-- Best-effort numeric parse of a string cell, as pandas to_numeric performs
for plain decimal literals: surrounding whitespace, an optional sign, integer
digits, optional fractional digits.  Anything else is unparsable. -/
def parseNumericString (s : String) : Option ℚ :=
  let t := ((s.data.dropWhile Char.isWhitespace).reverse.dropWhile
    Char.isWhitespace).reverse
  match t with
  | '-' :: rest => (parseUnsignedChars rest).map (fun q => -q)
  | '+' :: rest => parseUnsignedChars rest
  | _ => parseUnsignedChars t

/-- pandas astype("string") on a cell: missing values stay missing, any other
value becomes its text rendering. -/
def astypeString : PyVal → Option String
  | .vnone => Option.none
  | .vnan => Option.none
  | .vstr s => some s
  | .vnum q => some (toString q)
  | .vbool b => some (if b then "True" else "False")

/-- numpy truthiness used by astype("bool") on an object column. -/
def astypeBool : PyVal → Bool
  | .vnone => false
  | .vnan => true
  | .vstr s => !s.isEmpty
  | .vnum q => if q = 0 then false else true
  | .vbool b => b

/-- pandas to_numeric(errors="coerce") on a cell: numbers pass through,
booleans become 0/1, strings are parsed, everything unparsable or missing
becomes null. -/
def to_numeric_coerce : PyVal → Option ℚ
  | .vnone => Option.none
  | .vnan => Option.none
  | .vstr s => parseNumericString s
  | .vnum q => some q
  | .vbool b => some (if b then 1 else 0)

/-- One row of the processed input table before type coercion. `idx` is the
pandas row index.  A column field is meaningful only when the surrounding
`RawTable` lists that column in `cols`. -/
structure RawRow where
  idx : ℕ
  match_key : PyVal := .vnone
  route_id : PyVal := .vnone
  stop_id : PyVal := .vnone
  is_unscheduled : PyVal := .vnone
  scheduled_seconds : PyVal := .vnone
  actual_seconds : PyVal := .vnone
  delay_seconds : PyVal := .vnone
  delay_minutes : PyVal := .vnone
  trip_uid : PyVal := .vnone
deriving DecidableEq

/-- The raw dataframe read for one day: its column names and its rows. -/
structure RawTable where
  cols : List String
  rows : List RawRow
deriving DecidableEq

/-- REQUIRED_COLS (transform.py lines 30-39). -/
def REQUIRED_COLS : List String :=
  ["match_key", "route_id", "stop_id", "is_unscheduled",
   "scheduled_seconds", "actual_seconds", "delay_seconds", "delay_minutes"]

/-- Errors a single day's processing can raise: the ValueError of
validate_schema, a missing input object in the storage collaborator, or any
other per-day error. -/
inductive PipeError where
  | schemaError (missing : List String)
  | notFound (obj : String)
  | otherError (msg : String)
deriving DecidableEq

/-- validate_schema (transform.py lines 69-75): raise when any required
column is absent. -/
def validate_schema (t : RawTable) : Except PipeError Unit :=
  let missing := REQUIRED_COLS.filter (fun c => !t.cols.contains c)
  if missing.isEmpty then .ok () else .error (.schemaError missing)

/-- One row after coerce_types.  It also carries every derived feature column
(initialised to null and filled by the deriver stages, mirroring the dataframe
gaining columns).  hour_sin, hour_cos, dow and is_weekend are per-row outputs
never read by any later stage and are not tracked. -/
structure Row where
  idx : ℕ
  match_key : Option String
  route_id : Option String
  stop_id : Option String
  trip_uid : Option String := Option.none
  is_unscheduled : Bool
  scheduled_seconds : Option ℚ
  actual_seconds : Option ℚ
  delay_seconds : Option ℚ
  delay_minutes : Option ℚ
  service_date : Option String := Option.none
  hour : Option ℤ := Option.none
  scheduled_time : Option String := Option.none
  actual_time : Option String := Option.none
  lagged_delay_1 : Option ℚ := Option.none
  lagged_delay_2 : Option ℚ := Option.none
  actual_headway_seconds : Option ℚ := Option.none
  headway_ratio : Option ℚ := Option.none
  route_rolling_delay : Option ℚ := Option.none
  period_of_day : Option String := Option.none
  is_peak : Option ℤ := Option.none
  trip_progress : Option ℚ := Option.none
  rolling_mean_delay_trip : Option ℚ := Option.none
deriving DecidableEq

/-- A typed dataframe: whether the optional trip_uid column is present, and
the rows. -/
structure Table where
  hasTripUid : Bool
  rows : List Row
deriving DecidableEq

/-- coerce_types on one row (transform.py lines 200-214). -/
def coerce_row (hasTrip : Bool) (r : RawRow) : Row :=
  { idx := r.idx
    match_key := astypeString r.match_key
    route_id := astypeString r.route_id
    stop_id := astypeString r.stop_id
    trip_uid := if hasTrip then astypeString r.trip_uid else Option.none
    is_unscheduled := astypeBool r.is_unscheduled
    scheduled_seconds := to_numeric_coerce r.scheduled_seconds
    actual_seconds := to_numeric_coerce r.actual_seconds
    delay_seconds := to_numeric_coerce r.delay_seconds
    delay_minutes := to_numeric_coerce r.delay_minutes }

/-- coerce_types (transform.py lines 196-216): normalise the column types;
identifier columns to text, is_unscheduled to boolean, the four numeric
columns through to_numeric(errors="coerce"). -/
def coerce_types (t : RawTable) : Table :=
  { hasTripUid := t.cols.contains "trip_uid"
    rows := t.rows.map (coerce_row (t.cols.contains "trip_uid")) }

/-- dropna(subset=["match_key", "stop_id"]) (transform.py line 271). -/
def dropna_keys (l : List Row) : List Row :=
  l.filter (fun r => r.match_key.isSome && r.stop_id.isSome)

/-- The drop_duplicates subset of deduplicate (transform.py line 225). -/
def dedup_key (r : Row) : Option String × Option String × Option ℚ :=
  (r.match_key, r.stop_id, r.actual_seconds)

/-- drop_duplicates keeps the first occurrence of each key; `seen` holds the
keys already emitted. -/
def dedup_go (seen : List (Option String × Option String × Option ℚ)) :
    List Row → List Row
  | [] => []
  | r :: rs =>
      if dedup_key r ∈ seen then dedup_go seen rs
      else r :: dedup_go (dedup_key r :: seen) rs

/-- deduplicate (transform.py lines 219-227). -/
def deduplicate (l : List Row) : List Row := dedup_go [] l

/-- filter_delay_outliers (transform.py lines 230-234): keep a row when its
delay is null or lies in the inclusive between(-9000, 9000) band. -/
def filter_delay_outliers (l : List Row) : List Row :=
  l.filter (fun r =>
    match r.delay_seconds with
    | Option.none => true
    | some d => decide (-9000 ≤ d) && decide (d ≤ 9000))

/-- Two-digit zero padding, astype(str).str.zfill(2) on a timedelta
component. -/
def pad2 (n : ℤ) : String :=
  let s := toString n
  if s.length < 2 then "0" ++ s else s

/-- The HH:MM:SS rendering of add_derivated_features: the hours, minutes and
seconds components of pd.to_timedelta(value, unit="s") — the components of
the Euclidean remainder modulo one day — zero-padded to two digits. -/
def hhmmss (q : ℚ) : String :=
  let n : ℤ := ⌊q⌋
  pad2 (n / 3600 % 24) ++ ":" ++ pad2 (n % 3600 / 60) ++ ":" ++ pad2 (n % 60)

/-- add_derivated_features (transform.py lines 78-124), restricted to the
columns read later (hour_sin/hour_cos/dow/is_weekend are terminal outputs and
not tracked): service_date, hour from scheduled_seconds falling back to
actual_seconds, and the two formatted clock strings, which are computed on
fillna(0) and then nulled where the source seconds value is missing. -/
def add_derivated_features (service_date : String) (t : Table) : Table :=
  { t with rows := t.rows.map (fun r =>
      let sec_base := match r.scheduled_seconds with
        | some q => some q
        | Option.none => r.actual_seconds
      let hour : Option ℤ := sec_base.map (fun q => Int.emod ⌊q / 3600⌋ 24)
      let st := hhmmss (r.scheduled_seconds.getD 0)
      let at_ := hhmmss (r.actual_seconds.getD 0)
      { r with
        service_date := some service_date
        hour := hour
        scheduled_time := if r.scheduled_seconds.isSome then some st
          else Option.none
        actual_time := if r.actual_seconds.isSome then some at_
          else Option.none }) }

/-- out["direction"] = out["stop_id"].str[-1] (transform.py line 142): the
last character of stop_id; null for a null or empty stop_id.  The column is
dropped again at line 191, so it is recomputed on demand here. -/
def direction (r : Row) : Option Char :=
  r.stop_id.bind (fun s => s.data.getLast?)

/-- sort_values(by=["match_key", "actual_seconds"], na_position="last"). -/
def leByMatchActual (a b : Row) : Prop :=
  Ordering.then (cmpOpt cmpStr a.match_key b.match_key)
    (cmpOpt cmpQ a.actual_seconds b.actual_seconds) ≠ Ordering.gt

instance : DecidableRel leByMatchActual := fun a b => by
  unfold leByMatchActual; infer_instance

/-- sort_values(by=["stop_id", "actual_seconds"], na_position="last"). -/
def leByStopActual (a b : Row) : Prop :=
  Ordering.then (cmpOpt cmpStr a.stop_id b.stop_id)
    (cmpOpt cmpQ a.actual_seconds b.actual_seconds) ≠ Ordering.gt

instance : DecidableRel leByStopActual := fun a b => by
  unfold leByStopActual; infer_instance

/-- sort_values(by=["route_id", "direction", "actual_seconds"],
na_position="last"). -/
def leByRouteDirActual (a b : Row) : Prop :=
  Ordering.then (cmpOpt cmpStr a.route_id b.route_id)
    (Ordering.then (cmpOpt cmpChar (direction a) (direction b))
      (cmpOpt cmpQ a.actual_seconds b.actual_seconds)) ≠ Ordering.gt

instance : DecidableRel leByRouteDirActual := fun a b => by
  unfold leByRouteDirActual; infer_instance

/-- sort_values(by=["trip_uid", "scheduled_seconds"], na_position="last"). -/
def leByTripSched (a b : Row) : Prop :=
  Ordering.then (cmpOpt cmpStr a.trip_uid b.trip_uid)
    (cmpOpt cmpQ a.scheduled_seconds b.scheduled_seconds) ≠ Ordering.gt

instance : DecidableRel leByTripSched := fun a b => by
  unfold leByTripSched; infer_instance

/-- sort_index() (transform.py line 192). -/
def leByIdx (a b : Row) : Prop := a.idx ≤ b.idx

instance : DecidableRel leByIdx := fun a b => by
  unfold leByIdx; infer_instance

/-- For each row, the earlier rows of its (non-null) group key in the current
row order, most recent first.  pandas groupby drops null keys: a null-key row
belongs to no group and contributes to no other row's window.  `acc` holds
the rows already passed, most recent first. -/
def prev_same_go {K : Type} [DecidableEq K] (key : Row → Option K) :
    List Row → List Row → List (Row × List Row)
  | _, [] => []
  | acc, r :: rs =>
      let prevs :=
        match key r with
        | Option.none => []
        | some k => acc.filter (fun p => decide (key p = some k))
      (r, prevs) :: prev_same_go key (r :: acc) rs

/-- Pair every row with its earlier same-group rows, most recent first. -/
def with_prev_same {K : Type} [DecidableEq K] (key : Row → Option K)
    (l : List Row) : List (Row × List Row) :=
  prev_same_go key [] l

/-- groupby(...)[col].shift(n): the value carried by the n-th previous row of
the same group, null when no such row exists. -/
def shift_val (n : ℕ) (val : Row → Option ℚ) (prevs : List Row) : Option ℚ :=
  (prevs.get? (n - 1)).bind val

/-- Lagged delays (transform.py lines 144-148): groupby("match_key") shifts
of delay_seconds by one and by two, in the current row order. -/
def apply_lags (l : List Row) : List Row :=
  (with_prev_same (fun r => r.match_key) l).map (fun p =>
    { p.1 with
      lagged_delay_1 := shift_val 1 (fun r => r.delay_seconds) p.2
      lagged_delay_2 := shift_val 2 (fun r => r.delay_seconds) p.2 })

/-- Null-propagating subtraction, pandas series subtraction and diff(). -/
def sub_val : Option ℚ → Option ℚ → Option ℚ
  | some a, some b => some (a - b)
  | _, _ => Option.none

/-- replace(0, pd.NA) on a cell. -/
def replace_zero_na : Option ℚ → Option ℚ
  | some x => if x = 0 then Option.none else some x
  | Option.none => Option.none

/-- Null-propagating division; its callers guard the divisor against zero
with replace_zero_na first, so it never divides by zero. -/
def div_val : Option ℚ → Option ℚ → Option ℚ
  | some a, some b => some (a / b)
  | _, _ => Option.none

/-- Headway and headway ratio (transform.py lines 150-156).
actual_headway_seconds is groupby("stop_id")["actual_seconds"].diff(): the
row's actual_seconds minus the previous group row's.  The previous headway
is the shift(1) of that completed column — the previous row's own diff —
with replace(0, NA) applied, and the ratio null-propagates through the
division. -/
def apply_headways (l : List Row) : List Row :=
  (with_prev_same (fun r => r.stop_id) l).map (fun p =>
    let prev1 := (p.2.get? 0).bind (fun r => r.actual_seconds)
    let prev2 := (p.2.get? 1).bind (fun r => r.actual_seconds)
    let hw := sub_val p.1.actual_seconds prev1
    let prev_hw := replace_zero_na (sub_val prev1 prev2)
    { p.1 with
      actual_headway_seconds := hw
      headway_ratio := div_val hw prev_hw })

/-- rolling(window=w, min_periods=1).mean().shift(1) within a group: the mean
of the non-null values among the w most recent earlier rows of the group;
null on the first row of a group and when every value in the window is
null. -/
def rolling_shift_mean (w : ℕ) (val : Row → Option ℚ) (prevs : List Row) :
    Option ℚ :=
  if prevs.isEmpty then Option.none
  else
    let vs := (prevs.take w).filterMap val
    if vs.isEmpty then Option.none
    else some (vs.sum / (vs.length : ℚ))

/-- The groupby(["route_id", "direction"]) key; null when either part is
missing, which excludes the row from every group. -/
def route_dir_key (r : Row) : Option (String × Char) :=
  match r.route_id, direction r with
  | some a, some c => some (a, c)
  | _, _ => Option.none

/-- Route rolling delay (transform.py lines 158-163): trailing 5-row mean of
delay_seconds per (route_id, direction), excluding the current row. -/
def apply_route_rolling (l : List Row) : List Row :=
  (with_prev_same route_dir_key l).map (fun p =>
    { p.1 with route_rolling_delay :=
        rolling_shift_mean 5 (fun r => r.delay_seconds) p.2 })

/-- period_of_day on a non-null hour (transform.py lines 167-172). -/
def period_of_day (h : ℤ) : String :=
  if 6 ≤ h ∧ h < 10 then "morning_peak"
  else if 10 ≤ h ∧ h < 16 then "midday"
  else if 16 ≤ h ∧ h < 20 then "evening_peak"
  else "off_peak"

/-- Peak-period flag stage (transform.py lines 166-174): period_of_day maps
over hour keeping nulls; is_peak is the isin(["morning_peak",
"evening_peak"]) membership test, on which a null period is simply not a
member and yields 0. -/
def apply_period (l : List Row) : List Row :=
  l.map (fun r =>
    let p := r.hour.map period_of_day
    { r with
      period_of_day := p
      is_peak := some (match p with
        | some s => if s = "morning_peak" ∨ s = "evening_peak" then 1 else 0
        | Option.none => 0) })

/-- groupby("trip_uid")["scheduled_seconds"].transform("min"): the group
minimum, skipping nulls; null for an all-null group. -/
def group_min_sched (l : List Row) (k : String) : Option ℚ :=
  match (l.filter (fun r => decide (r.trip_uid = some k))).filterMap
      (fun r => r.scheduled_seconds) with
  | [] => Option.none
  | v :: vs => some (vs.foldl min v)

/-- groupby("trip_uid")["scheduled_seconds"].transform("max"), as for min. -/
def group_max_sched (l : List Row) (k : String) : Option ℚ :=
  match (l.filter (fun r => decide (r.trip_uid = some k))).filterMap
      (fun r => r.scheduled_seconds) with
  | [] => Option.none
  | v :: vs => some (vs.foldl max v)

/-- Trip progress (transform.py lines 177-182): per trip_uid group,
(scheduled_seconds - min) / (max - min) with the zero duration replaced by
NA before the division, so the division itself never divides by zero; rows
with a null trip_uid are outside every group and get null. -/
def apply_trip_progress (l : List Row) : List Row :=
  l.map (fun r =>
    match r.trip_uid with
    | Option.none => { r with trip_progress := Option.none }
    | some k =>
        let mn := group_min_sched l k
        let mx := group_max_sched l k
        let dur := replace_zero_na (sub_val mx mn)
        { r with trip_progress :=
            div_val (sub_val r.scheduled_seconds mn) dur })

/-- Rolling mean delay within a trip (transform.py lines 184-188): trailing
3-row mean of delay_seconds per trip_uid, excluding the current row. -/
def apply_trip_rolling (l : List Row) : List Row :=
  (with_prev_same (fun r => r.trip_uid) l).map (fun p =>
    { p.1 with rolling_mean_delay_trip :=
        rolling_shift_mean 3 (fun r => r.delay_seconds) p.2 })

/-- add_time_series_features (transform.py lines 127-193): the layered
sort/group/window features, then sort_index() to restore the original row
order.  The trip features run only when the trip_uid column is present. -/
def add_time_series_features (t : Table) : Table :=
  let r1 := apply_lags (List.insertionSort leByMatchActual t.rows)
  let r2 := apply_headways (List.insertionSort leByStopActual r1)
  let r3 := apply_route_rolling (List.insertionSort leByRouteDirActual r2)
  let r4 := apply_period r3
  let r5 :=
    if t.hasTripUid then
      apply_trip_rolling
        (List.insertionSort leByTripSched (apply_trip_progress r4))
    else r4
  { t with rows := List.insertionSort leByIdx r5 }

/-- transform_processed_day_to_cleaned (transform.py lines 258-288):
validate, coerce, common cleaning, feature derivation, then the
scheduled/unscheduled split with each partition's completeness dropna. -/
def transform_processed_day_to_cleaned (t : RawTable) (service_date : String) :
    Except PipeError (Table × Table) := do
  let _ ← validate_schema t
  let tb0 := coerce_types t
  let rows := filter_delay_outliers (deduplicate (dropna_keys tb0.rows))
  let tb := add_time_series_features
    (add_derivated_features service_date { tb0 with rows := rows })
  let scheduled := (tb.rows.filter (fun r => r.is_unscheduled == false)).filter
    (fun r => r.route_id.isSome && r.scheduled_seconds.isSome)
  let unscheduled := (tb.rows.filter (fun r => r.is_unscheduled == true)).filter
    (fun r => r.actual_seconds.isSome)
  pure ({ tb with rows := scheduled }, { tb with rows := unscheduled })

/-- build_processed_object (transform.py lines 49-50). -/
def build_processed_object (day : String) : String :=
  "grupo5/processed/gtfs_with_delays/date=" ++ day ++ "/mta_delays_" ++ day
    ++ ".parquet"

/-- iterate_dates (transform.py lines 42-47): the inclusive day range,
days modelled as day numbers. -/
def iterate_dates (start endd : ℕ) : List ℕ :=
  List.range' start (endd + 1 - start)

/-- The body of the day loop of transform_gtfs_processed_range_to_cleaned
(transform.py lines 297-318): download the day's object through the storage
collaborator, then transform.  There is no try/except around it, so any
error propagates out of the loop body. -/
def process_day (download : String → Except PipeError RawTable) (day : ℕ) :
    Except PipeError (Table × Table) := do
  let df ← download (build_processed_object (toString day))
  transform_processed_day_to_cleaned df (toString day)

/-- The day loop with Python's uncaught-exception semantics: the result is
the list of (day, scheduled, unscheduled) outputs written before any
failure, together with the failing day and its error when one occurs —
at which point the remaining days are not reached. -/
def run_days (download : String → Except PipeError RawTable) :
    List ℕ → List (ℕ × Table × Table) × Option (ℕ × PipeError)
  | [] => ([], Option.none)
  | d :: ds =>
      match process_day download d with
      | .error e => ([], some (d, e))
      | .ok out =>
          let rest := run_days download ds
          ((d, out) :: rest.1, rest.2)

/-- transform_gtfs_processed_range_to_cleaned (transform.py lines 291-318):
the day loop over the inclusive [start, end] range. -/
def transform_gtfs_processed_range_to_cleaned
    (download : String → Except PipeError RawTable) (start endd : ℕ) :
    List (ℕ × Table × Table) × Option (ℕ × PipeError) :=
  run_days download (iterate_dates start endd)

/-- Whether a day's processing succeeded. -/
def except_ok : Except PipeError (Table × Table) → Bool
  | .ok _ => true
  | .error _ => false

/-! Helper lemmas about the group-window scan. -/

theorem prev_same_go_fst {K : Type} [DecidableEq K] (key : Row → Option K) :
    ∀ (l acc : List Row), (prev_same_go key acc l).map Prod.fst = l
  | [], _ => rfl
  | r :: rs, acc => by
      simp [prev_same_go, prev_same_go_fst key rs (r :: acc)]

theorem with_prev_same_fst {K : Type} [DecidableEq K] (key : Row → Option K)
    (l : List Row) : (with_prev_same key l).map Prod.fst = l :=
  prev_same_go_fst key l []

/-- The earlier rows of the group of key k, in row order: the formal reading
of "the previous rows of that group in that ordering". -/
def group_before {K : Type} [DecidableEq K] (key : Row → Option K)
    (l : List Row) (i : ℕ) (k : K) : List Row :=
  (l.take i).filter (fun p => decide (key p = some k))

theorem prev_same_go_get? {K : Type} [DecidableEq K] (key : Row → Option K) :
    ∀ (l acc : List Row) (i : ℕ) (r : Row), l.get? i = some r →
      (prev_same_go key acc l).get? i = some (r,
        match key r with
        | Option.none => []
        | some k => ((l.take i).reverse ++ acc).filter
            (fun p => decide (key p = some k)))
  | [], _, i, _, h => by cases i <;> simp at h
  | x :: xs, acc, 0, r, h => by
      simp at h
      subst h
      rfl
  | x :: xs, acc, i + 1, r, h => by
      simp only [List.get?] at h
      have ih := prev_same_go_get? key xs (x :: acc) i r h
      simp only [prev_same_go, List.get?, ih, List.take_succ_cons,
        List.reverse_cons, List.append_assoc, List.singleton_append]

theorem with_prev_same_get? {K : Type} [DecidableEq K] (key : Row → Option K)
    (l : List Row) (i : ℕ) (r : Row) (h : l.get? i = some r) :
    (with_prev_same key l).get? i = some (r,
      match key r with
      | Option.none => []
      | some k => (group_before key l i k).reverse) := by
  have := prev_same_go_get? key l [] i r h
  simpa [with_prev_same, group_before, List.filter_reverse] using this

/-! ### C7 — outlier filter boundary -/

/-- C7: the outlier filter retains exactly the rows whose delay_seconds is
null or lies in the inclusive interval [-9000, 9000]; in particular a delay
of 9000 is retained, 9001 is removed, and a null delay is retained. -/
theorem outlier_filter_boundary :
    ∀ (l : List Row) (r : Row),
      r ∈ filter_delay_outliers l ↔
        r ∈ l ∧ (r.delay_seconds = Option.none ∨
          ∃ d : ℚ, r.delay_seconds = some d ∧ -9000 ≤ d ∧ d ≤ 9000) := by
  intro l r
  unfold filter_delay_outliers
  rw [List.mem_filter]
  refine and_congr_right fun _ => ?_
  cases hd : r.delay_seconds with
  | none => simp
  | some d => simp [hd]

/-! ### C1 — the day-range orchestrator and per-day failures -/

/-- A well-formed one-row input table for a day that processes cleanly. -/
def good_row : RawRow :=
  { idx := 0, match_key := .vstr "m1", route_id := .vstr "A",
    stop_id := .vstr "101N", is_unscheduled := .vbool false,
    scheduled_seconds := .vnum 36000, actual_seconds := .vnum 36060,
    delay_seconds := .vnum 60, delay_minutes := .vnum 1 }

/-- An input table whose day should process successfully. -/
def good_table : RawTable := { cols := REQUIRED_COLS, rows := [good_row] }

/-- A malformed input table: the required delay_seconds column is missing,
so validate_schema raises for its day. -/
def bad_table : RawTable :=
  { cols := ["match_key", "route_id", "stop_id", "is_unscheduled",
             "scheduled_seconds", "actual_seconds", "delay_minutes"],
    rows := [] }

/-- A storage collaborator serving day 0 the malformed table and every other
day the well-formed one. -/
def demo_download (obj : String) : Except PipeError RawTable :=
  if obj = build_processed_object "0" then .ok bad_table else .ok good_table

/-- C1 counterexample: over the inclusive range [0, 1], day 0's input is
malformed (schema violation) while day 1's input processes cleanly on its
own; the orchestrator nevertheless produces no output at all — the day-0
failure aborts the range and day 1 is never processed, contradicting the
claim that no single day's failure aborts the remaining days. -/
theorem orchestrator_stops_at_failing_day_example :
    transform_gtfs_processed_range_to_cleaned demo_download 0 1 =
      ([], some (0, .schemaError ["delay_seconds"])) ∧
    except_ok (process_day demo_download 1) = true := by decide

/-- C1 (amended): a failure while processing one day is not caught at the
orchestrator boundary.  For any day list pre ++ d :: rest in which every day
of pre processes successfully and day d fails with error e, the loop
processes exactly the days of pre, reports the error of day d, and never
reaches the days of rest. -/
theorem day_failure_aborts_remaining_days
    (download : String → Except PipeError RawTable)
    (pre : List ℕ) (d : ℕ) (rest : List ℕ) (e : PipeError)
    (hpre : ∀ p ∈ pre, except_ok (process_day download p) = true)
    (hd : process_day download d = .error e) :
    (run_days download (pre ++ d :: rest)).2 = some (d, e) ∧
    (run_days download (pre ++ d :: rest)).1.map Prod.fst = pre := by
  induction pre with
  | nil => simp [run_days, hd]
  | cons p ps ih =>
      have hp := hpre p (by simp)
      cases hproc : process_day download p with
      | error e2 => rw [hproc] at hp; simp [except_ok] at hp
      | ok out =>
          have ih2 := ih (fun q hq => hpre q (by simp [hq]))
          simp [run_days, hproc, ih2.1, ih2.2]

/-- Witness for the amended C1: with the demo collaborator, day 1 succeeds,
day 0 fails on schema validation, and running [1, 0, 2] processes exactly
day 1, reports day 0's error and never reaches day 2. -/
theorem day_failure_aborts_remaining_days_witness :
    (run_days demo_download ([1] ++ 0 :: [2])).2 =
      some (0, .schemaError ["delay_seconds"]) ∧
    (run_days demo_download ([1] ++ 0 :: [2])).1.map Prod.fst = [1] :=
  day_failure_aborts_remaining_days demo_download [1] 0 [2]
    (.schemaError ["delay_seconds"]) (by decide) rfl

/-! ### C2 — the type coercer -/

/-- C2: the type coercer is total — on any input table it produces, at every
row position, exactly the row-wise coercion: identifier columns through the
text cast, is_unscheduled through the boolean cast, the four numeric columns
through to_numeric(errors="coerce"); a string a numeric column cannot parse
becomes null rather than an error, and a numeric cell survives only from a
number, a boolean, or a parsable string. -/
theorem coerce_types_total_characterisation :
    (∀ (t : RawTable) (i : ℕ) (raw : RawRow), t.rows.get? i = some raw →
      (coerce_types t).rows.get? i =
        some (coerce_row (t.cols.contains "trip_uid") raw)) ∧
    (∀ (t : RawTable), (coerce_types t).rows.length = t.rows.length) ∧
    (∀ (h : Bool) (raw : RawRow),
      (coerce_row h raw).match_key = astypeString raw.match_key ∧
      (coerce_row h raw).route_id = astypeString raw.route_id ∧
      (coerce_row h raw).stop_id = astypeString raw.stop_id ∧
      (coerce_row h raw).is_unscheduled = astypeBool raw.is_unscheduled ∧
      (coerce_row h raw).scheduled_seconds =
        to_numeric_coerce raw.scheduled_seconds ∧
      (coerce_row h raw).actual_seconds =
        to_numeric_coerce raw.actual_seconds ∧
      (coerce_row h raw).delay_seconds =
        to_numeric_coerce raw.delay_seconds ∧
      (coerce_row h raw).delay_minutes =
        to_numeric_coerce raw.delay_minutes) ∧
    (∀ s : String, parseNumericString s = Option.none →
      to_numeric_coerce (PyVal.vstr s) = Option.none) ∧
    (∀ v : PyVal, (to_numeric_coerce v).isSome = true →
      (∃ q, v = .vnum q) ∨ (∃ b, v = .vbool b) ∨
      (∃ s q, v = .vstr s ∧ parseNumericString s = some q)) := by
  refine ⟨?_, ?_, ?_, ?_, ?_⟩
  · intro t i raw h
    show (t.rows.map (coerce_row (t.cols.contains "trip_uid"))).get? i = _
    rw [List.get?_map, h]
    rfl
  · intro t
    simp [coerce_types]
  · intro h raw
    exact ⟨rfl, rfl, rfl, rfl, rfl, rfl, rfl, rfl⟩
  · intro s h
    simp [to_numeric_coerce, h]
  · intro v hv
    cases v with
    | vnone => simp [to_numeric_coerce] at hv
    | vnan => simp [to_numeric_coerce] at hv
    | vstr s =>
        cases hp : parseNumericString s with
        | none => simp [to_numeric_coerce, hp] at hv
        | some q => exact Or.inr (Or.inr ⟨s, q, rfl, hp⟩)
    | vnum q => exact Or.inl ⟨q, rfl⟩
    | vbool b => exact Or.inr (Or.inl ⟨b, rfl⟩)

/-- A row whose numeric cells are malformed strings. -/
def c2_raw : RawRow :=
  { idx := 0, match_key := .vnum 7, route_id := .vnone,
    stop_id := .vstr "101N", is_unscheduled := .vnan,
    scheduled_seconds := .vstr "n/a", actual_seconds := .vstr " 34 ",
    delay_seconds := .vstr "1.2.3", delay_minutes := .vbool true }

/-- A one-row table exercising the coercer on malformed values. -/
def c2_table : RawTable := { cols := REQUIRED_COLS, rows := [c2_raw] }

/-- Witness for C2: the coercer applied at a concrete malformed row, and an
unparsable numeric string becoming null. -/
theorem coerce_types_total_characterisation_witness :
    (coerce_types c2_table).rows.get? 0 =
      some (coerce_row (c2_table.cols.contains "trip_uid") c2_raw) ∧
    to_numeric_coerce (PyVal.vstr "n/a") = Option.none :=
  ⟨coerce_types_total_characterisation.1 c2_table 0 c2_raw (by decide),
   coerce_types_total_characterisation.2.2.2.1 "n/a" (by decide)⟩

/-! ### C4 — HH:MM:SS clock strings -/

theorem pad2_length_of_lt (n : ℤ) (h0 : 0 ≤ n) (h : n < 60) :
    (pad2 n).length = 2 := by
  have hall : ∀ m ∈ List.range 60, (pad2 (m : ℤ)).length = 2 := by decide
  have hmem : n.toNat ∈ List.range 60 := by
    rw [List.mem_range]; omega
  have := hall n.toNat hmem
  rwa [Int.toNat_of_nonneg h0] at this

theorem hhmmss_length (q : ℚ) : (hhmmss q).length = 8 := by
  unfold hhmmss
  have h1 : (pad2 (⌊q⌋ / 3600 % 24)).length = 2 :=
    pad2_length_of_lt _ (by omega) (by omega)
  have h2 : (pad2 (⌊q⌋ % 3600 / 60)).length = 2 :=
    pad2_length_of_lt _ (by omega) (by omega)
  have h3 : (pad2 (⌊q⌋ % 60)).length = 2 :=
    pad2_length_of_lt _ (by omega) (by omega)
  have hc : (":" : String).length = 1 := rfl
  simp only [String.length_append, h1, h2, h3, hc]

/-- C4: every row's scheduled_time (resp. actual_time) is the HH:MM:SS
rendering of its scheduled_seconds (resp. actual_seconds) and is null exactly
when the source seconds value is null; the rendering is always an 8-character
zero-padded clock string, never the literal "nan", and for values within one
day its components reconstruct the source value. -/
theorem clock_string_rendering :
    (∀ (d : String) (t : Table) (i : ℕ) (r r' : Row),
      t.rows.get? i = some r →
      (add_derivated_features d t).rows.get? i = some r' →
        r'.scheduled_time = r.scheduled_seconds.map hhmmss ∧
        r'.actual_time = r.actual_seconds.map hhmmss ∧
        (r'.scheduled_time = Option.none ↔
          r.scheduled_seconds = Option.none) ∧
        (r'.actual_time = Option.none ↔ r.actual_seconds = Option.none)) ∧
    (∀ q : ℚ, (hhmmss q).length = 8 ∧ hhmmss q ≠ "nan") ∧
    (∀ q : ℚ, 0 ≤ q → q < 86400 →
      ⌊q⌋ / 3600 % 24 * 3600 + ⌊q⌋ % 3600 / 60 * 60 + ⌊q⌋ % 60 = ⌊q⌋) := by
  refine ⟨?_, ?_, ?_⟩
  · intro d t i r r' h h'
    unfold add_derivated_features at h'
    rw [List.get?_map, h] at h'
    rw [Option.map_some'] at h'
    have hr' := (Option.some.inj h').symm
    subst hr'
    cases hs : r.scheduled_seconds <;> cases ha : r.actual_seconds <;>
      simp [hs, ha]
  · intro q
    refine ⟨hhmmss_length q, fun hc => ?_⟩
    have h8 := hhmmss_length q
    rw [hc] at h8
    exact absurd h8 (by decide)
  · intro q h0 h1
    have hn0 : 0 ≤ ⌊q⌋ := Int.floor_nonneg.mpr h0
    have hn1 : ⌊q⌋ < 86400 := by
      exact_mod_cast (Int.floor_lt (z := 86400) (α := ℚ)).mpr (by norm_num [h1])
    omega

/-- A row with a scheduled time of 02:03:04 and no actual observation. -/
def c4_row : Row :=
  { idx := 0, match_key := some "m", route_id := some "A",
    stop_id := some "S1N", is_unscheduled := false,
    scheduled_seconds := some 7384, actual_seconds := Option.none,
    delay_seconds := Option.none, delay_minutes := Option.none }

/-- A one-row table for the clock-string witness. -/
def c4_table : Table := { hasTripUid := false, rows := [c4_row] }

/-- The scalar deriver's concrete output row for the witness table. -/
def c4_out : Row :=
  { c4_row with
    service_date := some "2025-01-01"
    hour := some 2
    scheduled_time := some "02:03:04" }

/-- Witness for C4: the scalar deriver applied to a concrete row with
scheduled_seconds 7384 (a 02:03:04 clock time) and null actual_seconds, and
the component reconstruction at 7384. -/
theorem clock_string_rendering_witness :
    (c4_out.scheduled_time = c4_row.scheduled_seconds.map hhmmss ∧
     c4_out.actual_time = c4_row.actual_seconds.map hhmmss ∧
     (c4_out.scheduled_time = Option.none ↔
       c4_row.scheduled_seconds = Option.none) ∧
     (c4_out.actual_time = Option.none ↔
       c4_row.actual_seconds = Option.none)) ∧
    ⌊(7384 : ℚ)⌋ / 3600 % 24 * 3600 + ⌊(7384 : ℚ)⌋ % 3600 / 60 * 60 +
      ⌊(7384 : ℚ)⌋ % 60 = ⌊(7384 : ℚ)⌋ :=
  ⟨clock_string_rendering.1 "2025-01-01" c4_table 0 c4_row c4_out rfl
      (by decide),
   clock_string_rendering.2.2 7384 (by norm_num) (by norm_num)⟩

/-! Membership helpers for the feature stages. -/

theorem mem_insertionSort {r : Row → Row → Prop} [DecidableRel r]
    {l : List Row} {a : Row} : a ∈ List.insertionSort r l ↔ a ∈ l :=
  (List.perm_insertionSort r l).mem_iff

theorem mem_map_with_prev {K : Type} [DecidableEq K] {key : Row → Option K}
    {f : Row × List Row → Row} {l : List Row} {r' : Row}
    (h : r' ∈ (with_prev_same key l).map f) :
    ∃ p : Row × List Row, p.1 ∈ l ∧ r' = f p := by
  obtain ⟨p, hp, rfl⟩ := List.mem_map.mp h
  refine ⟨p, ?_, rfl⟩
  have := List.mem_map_of_mem Prod.fst hp
  rwa [with_prev_same_fst] at this

theorem mem_apply_trip_progress {l : List Row} {r' : Row}
    (h : r' ∈ apply_trip_progress l) :
    ∃ r ∈ l, r'.idx = r.idx ∧ r'.hour = r.hour ∧
      r'.period_of_day = r.period_of_day ∧ r'.is_peak = r.is_peak ∧
      r'.trip_uid = r.trip_uid ∧
      r'.scheduled_seconds = r.scheduled_seconds := by
  unfold apply_trip_progress at h
  obtain ⟨r, hr, rfl⟩ := List.mem_map.mp h
  refine ⟨r, hr, ?_⟩
  cases htu : r.trip_uid <;> simp [htu]

theorem mem_apply_trip_rolling {l : List Row} {r' : Row}
    (h : r' ∈ apply_trip_rolling l) :
    ∃ r ∈ l, r'.idx = r.idx ∧ r'.hour = r.hour ∧
      r'.period_of_day = r.period_of_day ∧ r'.is_peak = r.is_peak ∧
      r'.trip_uid = r.trip_uid ∧ r'.scheduled_seconds = r.scheduled_seconds ∧
      r'.trip_progress = r.trip_progress := by
  obtain ⟨p, hp, rfl⟩ := mem_map_with_prev h
  exact ⟨p.1, hp, rfl, rfl, rfl, rfl, rfl, rfl, rfl⟩

/-! ### C10 — the is_peak flag -/

/-- The relation apply_period establishes between a row's hour,
period_of_day and is_peak fields. -/
def PeakInv (r : Row) : Prop :=
  r.period_of_day = r.hour.map period_of_day ∧
  r.is_peak = some (match r.hour.map period_of_day with
    | some s => if s = "morning_peak" ∨ s = "evening_peak" then 1 else 0
    | Option.none => 0)

theorem peakInv_apply_period (l : List Row) :
    ∀ r' ∈ apply_period l, PeakInv r' := by
  intro r' h
  obtain ⟨r, _, rfl⟩ := List.mem_map.mp h
  exact ⟨rfl, rfl⟩

/-- C10: in the enriched table is_peak is never null; it is 0 whenever hour
is null, and it is 1 exactly when period_of_day is morning_peak or
evening_peak. -/
theorem is_peak_never_null (t : Table) (r' : Row)
    (h : r' ∈ (add_time_series_features t).rows) :
    r'.is_peak ≠ Option.none ∧
    (r'.hour = Option.none → r'.is_peak = some 0) ∧
    (r'.is_peak = some 1 ↔
      r'.period_of_day = some "morning_peak" ∨
      r'.period_of_day = some "evening_peak") := by
  have hinv : PeakInv r' := by
    simp only [add_time_series_features] at h
    rw [mem_insertionSort] at h
    by_cases htu : t.hasTripUid
    · rw [if_pos htu] at h
      obtain ⟨r1, hr1, _, hh1, hp1, hip1, _, _, _⟩ := mem_apply_trip_rolling h
      rw [mem_insertionSort] at hr1
      obtain ⟨r0, hr0, _, hh0, hp0, hip0, _, _⟩ := mem_apply_trip_progress hr1
      have h0 := peakInv_apply_period _ r0 hr0
      unfold PeakInv at h0 ⊢
      rw [hp1, hip1, hh1, hp0, hip0, hh0]
      exact h0
    · rw [if_neg htu] at h
      exact peakInv_apply_period _ r' h
  obtain ⟨hp, hip⟩ := hinv
  refine ⟨?_, ?_, ?_⟩
  · rw [hip]; simp
  · intro hh; rw [hip]; rw [hh]; rfl
  · rw [hip, hp]
    cases hx : r'.hour.map period_of_day with
    | none => simp
    | some s =>
        by_cases hc : s = "morning_peak" ∨ s = "evening_peak" <;> simp [hc]

/-- A single-row table whose row falls in the morning peak. -/
def c10_row : Row :=
  { idx := 0, match_key := some "m", route_id := some "A",
    stop_id := some "S1N", is_unscheduled := false,
    scheduled_seconds := Option.none, actual_seconds := some 100,
    delay_seconds := some 5, delay_minutes := Option.none,
    hour := some 7 }

/-- The witness table for the peak flag. -/
def c10_table : Table := { hasTripUid := false, rows := [c10_row] }

/-- The enriched row the pipeline produces for c10_row. -/
def c10_out : Row :=
  { c10_row with
    period_of_day := some "morning_peak"
    is_peak := some 1 }

/-- Witness for C10: the enriched row of a concrete table, with its is_peak
properties. -/
theorem is_peak_never_null_witness :
    c10_out ∈ (add_time_series_features c10_table).rows ∧
    (c10_out.is_peak ≠ Option.none ∧
     (c10_out.hour = Option.none → c10_out.is_peak = some 0) ∧
     (c10_out.is_peak = some 1 ↔
       c10_out.period_of_day = some "morning_peak" ∨
       c10_out.period_of_day = some "evening_peak")) :=
  ⟨by decide, is_peak_never_null c10_table c10_out (by decide)⟩

/-! Reverse-index helpers: the most recent and second most recent earlier
group rows. -/

theorem get?_zero_eq_head? {α : Type} (l : List α) : l.get? 0 = l.head? := by
  cases l <;> rfl

theorem reverse_get?_zero {α : Type} (l : List α) :
    l.reverse.get? 0 = l.getLast? := by
  rw [get?_zero_eq_head?, List.head?_reverse]

theorem reverse_get?_one {α : Type} (l : List α) :
    l.reverse.get? 1 = l.dropLast.getLast? := by
  induction l using List.reverseRecOn with
  | nil => rfl
  | append_singleton xs a _ =>
      rw [List.reverse_append]
      show xs.reverse.get? 0 = (xs ++ [a]).dropLast.getLast?
      rw [reverse_get?_zero, List.dropLast_concat]

theorem shift_val_one (val : Row → Option ℚ) (g : List Row) :
    shift_val 1 val g.reverse = g.getLast?.bind val := by
  unfold shift_val
  rw [show (1 - 1 : ℕ) = 0 from rfl, reverse_get?_zero]

theorem shift_val_two (val : Row → Option ℚ) (g : List Row) :
    shift_val 2 val g.reverse = (g.dropLast.getLast?).bind val := by
  unfold shift_val
  rw [show (2 - 1 : ℕ) = 1 from rfl, reverse_get?_one]

/-! ### C5 — lagged delays -/

/-- One row of the three-stop lag example. -/
def c5_row (i : ℕ) (stop : String) (act delay : ℚ) : Row :=
  { idx := i, match_key := some "m", route_id := some "A",
    stop_id := some stop, is_unscheduled := false,
    scheduled_seconds := Option.none, actual_seconds := some act,
    delay_seconds := some delay, delay_minutes := Option.none }

/-- Three StopEvents of one match_key at actual_seconds 100, 200, 300 with
delays 5, 10, 15. -/
def c5_table : Table :=
  { hasTripUid := false,
    rows := [c5_row 0 "S1N" 100 5, c5_row 1 "S2N" 200 10,
             c5_row 2 "S3N" 300 15] }

/-- C5: in the row order of the lag stage (the (match_key, actual_seconds)
sort), every row's lagged_delay_1 is the delay_seconds of the most recent
earlier row of its match_key group and lagged_delay_2 that of the second
most recent (null when no such row exists — first and second rows of a
group); on the example trip the row at 300 carries lags 10 and 5 and the
row at 100 carries null lags. -/
theorem lagged_delay_correctness :
    (∀ (l : List Row) (i : ℕ) (r : Row) (k : String),
      l.get? i = some r → r.match_key = some k →
      (apply_lags l).get? i = some
        { r with
          lagged_delay_1 :=
            ((group_before (fun p => p.match_key) l i k).getLast?).bind
              (fun p => p.delay_seconds)
          lagged_delay_2 :=
            (((group_before (fun p => p.match_key) l i k).dropLast).getLast?).bind
              (fun p => p.delay_seconds) }) ∧
    ((add_time_series_features c5_table).rows.map
        (fun r => (r.actual_seconds, r.lagged_delay_1, r.lagged_delay_2))) =
      [(some 100, Option.none, Option.none),
       (some 200, some 5, Option.none),
       (some 300, some 10, some 5)] := by
  constructor
  · intro l i r k h hk
    unfold apply_lags
    rw [List.get?_map, with_prev_same_get? (fun p => p.match_key) l i r h]
    simp only [hk, Option.map_some']
    rw [shift_val_one, shift_val_two]
  · decide

/-- Witness for C5: the lag stage applied at position 2 of the example
table. -/
theorem lagged_delay_correctness_witness :
    (apply_lags c5_table.rows).get? 2 = some
      { c5_row 2 "S3N" 300 15 with
        lagged_delay_1 :=
          ((group_before (fun p => p.match_key) c5_table.rows 2 "m").getLast?).bind
            (fun p => p.delay_seconds)
        lagged_delay_2 :=
          (((group_before (fun p => p.match_key)
              c5_table.rows 2 "m").dropLast).getLast?).bind
            (fun p => p.delay_seconds) } :=
  lagged_delay_correctness.1 c5_table.rows 2 (c5_row 2 "S3N" 300 15) "m"
    (by decide) rfl

/-! ### C6 — headway ratio guard -/

/-- The most recent earlier actual_seconds of the row's stop_id group: the
value the row's diff() subtracts. -/
def prev_actual_1 (l : List Row) (i : ℕ) (k : String) : Option ℚ :=
  ((group_before (fun p => p.stop_id) l i k).getLast?).bind
    (fun p => p.actual_seconds)

/-- The second most recent earlier actual_seconds of the row's stop_id
group: the value the previous row's diff() subtracts, so that the previous
headway is prev_actual_1 - prev_actual_2. -/
def prev_actual_2 (l : List Row) (i : ℕ) (k : String) : Option ℚ :=
  (((group_before (fun p => p.stop_id) l i k).dropLast).getLast?).bind
    (fun p => p.actual_seconds)

/-- The ratio formula of apply_headways: null when the previous headway is
missing or zero, the plain quotient otherwise. -/
theorem ratio_formula (cur p1 p2 : Option ℚ) :
    (p1 = Option.none ∨ p2 = Option.none →
      div_val (sub_val cur p1) (replace_zero_na (sub_val p1 p2)) =
        Option.none) ∧
    (∀ b c : ℚ, p1 = some b → p2 = some c → b - c = 0 →
      div_val (sub_val cur p1) (replace_zero_na (sub_val p1 p2)) =
        Option.none) ∧
    (∀ a b c : ℚ, cur = some a → p1 = some b → p2 = some c → b - c ≠ 0 →
      div_val (sub_val cur p1) (replace_zero_na (sub_val p1 p2)) =
        some ((a - b) / (b - c))) := by
  refine ⟨?_, ?_, ?_⟩
  · rintro (rfl | rfl)
    · cases cur <;> cases p2 <;> simp [sub_val, replace_zero_na, div_val]
    · cases cur <;> cases p1 <;> simp [sub_val, replace_zero_na, div_val]
  · rintro b c rfl rfl h0
    cases cur <;> simp [sub_val, replace_zero_na, div_val, h0]
  · rintro a b c rfl rfl rfl hne
    simp [sub_val, replace_zero_na, div_val, hne]

/-- One row of the zero-headway example: all three rows share one stop. -/
def c6_row (i : ℕ) (mk : String) (act : ℚ) : Row :=
  { idx := i, match_key := some mk, route_id := some "A",
    stop_id := some "SSN", is_unscheduled := false,
    scheduled_seconds := Option.none, actual_seconds := some act,
    delay_seconds := Option.none, delay_minutes := Option.none }

/-- A stop group whose successive headways are [0, 30]: arrivals at 100,
100 and 130. -/
def c6_table : Table :=
  { hasTripUid := false,
    rows := [c6_row 0 "m1" 100, c6_row 1 "m2" 100, c6_row 2 "m3" 130] }

/-- C6: in the row order of the headway stage (the (stop_id,
actual_seconds) sort), every row's headway_ratio is its headway divided by
the previous headway of the same stop_id group, and is null whenever that
previous headway is missing or zero — the division is always guarded; the
concrete group with headways [0, 30] yields a null ratio at the row whose
headway is 30. -/
theorem headway_ratio_guard :
    (∀ (l : List Row) (i : ℕ) (r r' : Row) (k : String),
      l.get? i = some r → r.stop_id = some k →
      (apply_headways l).get? i = some r' →
      r'.actual_headway_seconds =
        sub_val r.actual_seconds (prev_actual_1 l i k) ∧
      ((prev_actual_1 l i k = Option.none ∨
          prev_actual_2 l i k = Option.none) →
        r'.headway_ratio = Option.none) ∧
      (∀ b c : ℚ, prev_actual_1 l i k = some b →
        prev_actual_2 l i k = some c → b - c = 0 →
        r'.headway_ratio = Option.none) ∧
      (∀ a b c : ℚ, r.actual_seconds = some a →
        prev_actual_1 l i k = some b → prev_actual_2 l i k = some c →
        b - c ≠ 0 → r'.headway_ratio = some ((a - b) / (b - c)))) ∧
    ((add_time_series_features c6_table).rows.map
        (fun r => (r.actual_seconds, r.actual_headway_seconds,
          r.headway_ratio))) =
      [(some 100, Option.none, Option.none),
       (some 100, some 0, Option.none),
       (some 130, some 30, Option.none)] := by
  constructor
  · intro l i r r' k h hk h'
    unfold apply_headways at h'
    rw [List.get?_map, with_prev_same_get? (fun p => p.stop_id) l i r h] at h'
    simp only [hk, Option.map_some'] at h'
    have hr' := (Option.some.inj h').symm
    subst hr'
    have e1 : ((group_before (fun p => p.stop_id) l i k).reverse.get? 0).bind
        (fun r => r.actual_seconds) = prev_actual_1 l i k := by
      rw [reverse_get?_zero]; rfl
    have e2 : ((group_before (fun p => p.stop_id) l i k).reverse.get? 1).bind
        (fun r => r.actual_seconds) = prev_actual_2 l i k := by
      rw [reverse_get?_one]; rfl
    refine ⟨?_, ?_, ?_, ?_⟩
    · show sub_val r.actual_seconds _ = _
      rw [e1]
    · intro hor
      show div_val (sub_val r.actual_seconds _)
        (replace_zero_na (sub_val _ _)) = Option.none
      rw [e1, e2]
      exact (ratio_formula r.actual_seconds _ _).1 hor
    · intro b c hb hc h0
      show div_val (sub_val r.actual_seconds _)
        (replace_zero_na (sub_val _ _)) = Option.none
      rw [e1, e2]
      exact (ratio_formula r.actual_seconds _ _).2.1 b c hb hc h0
    · intro a b c ha hb hc hne
      show div_val (sub_val r.actual_seconds _)
        (replace_zero_na (sub_val _ _)) = some ((a - b) / (b - c))
      rw [e1, e2]
      exact (ratio_formula r.actual_seconds _ _).2.2 a b c ha hb hc hne
  · decide

/-- Witness for C6: the headway stage applied at position 2 of the example
table, where the previous headway is 100 - 100 = 0 and the ratio is
null. -/
theorem headway_ratio_guard_witness :
    ((apply_headways c6_table.rows).get? 2 = some
      { c6_row 2 "m3" 130 with actual_headway_seconds := some 30 }) ∧
    ({ c6_row 2 "m3" 130 with
        actual_headway_seconds := some 30 } : Row).headway_ratio =
      Option.none :=
  ⟨by decide,
   ((headway_ratio_guard.1 c6_table.rows 2 (c6_row 2 "m3" 130)
      { c6_row 2 "m3" 130 with actual_headway_seconds := some 30 } "SSN"
      (by decide) rfl (by decide)).2.2.1) 100 100 (by decide) (by decide)
      (by norm_num)⟩

/-! ### C8 — partition completeness and disjointness -/

/-- C8: when a day transforms successfully, every Scheduled row has
is_unscheduled false with non-null route_id and scheduled_seconds, every
Unscheduled row has is_unscheduled true with non-null actual_seconds, and no
row lies in both partitions. -/
theorem partition_completeness (t : RawTable) (d : String) (s u : Table)
    (h : transform_processed_day_to_cleaned t d = .ok (s, u)) :
    (∀ r ∈ s.rows, r.is_unscheduled = false ∧ r.route_id ≠ Option.none ∧
      r.scheduled_seconds ≠ Option.none) ∧
    (∀ r ∈ u.rows, r.is_unscheduled = true ∧
      r.actual_seconds ≠ Option.none) ∧
    (∀ r : Row, r ∈ s.rows → r ∈ u.rows → False) := by
  unfold transform_processed_day_to_cleaned at h
  cases hv : validate_schema t with
  | error e =>
      rw [hv] at h
      simp [Bind.bind, Except.bind] at h
  | ok un =>
      rw [hv] at h
      simp only [Bind.bind, Except.bind, pure, Except.pure,
        Except.ok.injEq, Prod.mk.injEq] at h
      have hs : s.rows = ((add_time_series_features
          (add_derivated_features d
            { coerce_types t with rows := filter_delay_outliers (deduplicate
              (dropna_keys (coerce_types t).rows)) })).rows.filter
          (fun r => r.is_unscheduled == false)).filter
          (fun r => r.route_id.isSome && r.scheduled_seconds.isSome) := by
        rw [← h.1]
      have hu : u.rows = ((add_time_series_features
          (add_derivated_features d
            { coerce_types t with rows := filter_delay_outliers (deduplicate
              (dropna_keys (coerce_types t).rows)) })).rows.filter
          (fun r => r.is_unscheduled == true)).filter
          (fun r => r.actual_seconds.isSome) := by
        rw [← h.2]
      refine ⟨?_, ?_, ?_⟩
      · intro r hr
        rw [hs, List.mem_filter, List.mem_filter] at hr
        obtain ⟨⟨_, h1⟩, h2⟩ := hr
        simp only [beq_iff_eq] at h1
        simp only [Bool.and_eq_true, Option.isSome_iff_ne_none] at h2
        exact ⟨h1, h2.1, h2.2⟩
      · intro r hr
        rw [hu, List.mem_filter, List.mem_filter] at hr
        obtain ⟨⟨_, h1⟩, h2⟩ := hr
        simp only [beq_iff_eq] at h1
        simp only [Option.isSome_iff_ne_none] at h2
        exact ⟨h1, h2⟩
      · intro r hrs hru
        rw [hs, List.mem_filter, List.mem_filter] at hrs
        rw [hu, List.mem_filter, List.mem_filter] at hru
        have h1 := hrs.1.2
        have h2 := hru.1.2
        simp only [beq_iff_eq] at h1 h2
        rw [h1] at h2
        exact Bool.false_ne_true h2

/-- The enriched row the pipeline produces for good_row. -/
def c8_out : Row :=
  { idx := 0, match_key := some "m1", route_id := some "A",
    stop_id := some "101N", is_unscheduled := false,
    scheduled_seconds := some 36000, actual_seconds := some 36060,
    delay_seconds := some 60, delay_minutes := some 1,
    service_date := some "2025-01-01", hour := some 10,
    scheduled_time := some "10:00:00", actual_time := some "10:01:00",
    period_of_day := some "midday", is_peak := some 0 }

/-- The Scheduled partition good_table produces. -/
def c8_s : Table := { hasTripUid := false, rows := [c8_out] }

/-- The (empty) Unscheduled partition good_table produces. -/
def c8_u : Table := { hasTripUid := false, rows := [] }

/-- Witness for C8: the partition properties at the concrete one-row
table. -/
theorem partition_completeness_witness :
    (∀ r ∈ c8_s.rows, r.is_unscheduled = false ∧ r.route_id ≠ Option.none ∧
      r.scheduled_seconds ≠ Option.none) ∧
    (∀ r ∈ c8_u.rows, r.is_unscheduled = true ∧
      r.actual_seconds ≠ Option.none) ∧
    (∀ r : Row, r ∈ c8_s.rows → r ∈ c8_u.rows → False) :=
  partition_completeness good_table "2025-01-01" c8_s c8_u rfl

/-! ### C3 — row-order restoration -/

theorem map_with_prev_map_idx {K : Type} [DecidableEq K]
    (key : Row → Option K) (f : Row × List Row → Row)
    (hf : ∀ p, (f p).idx = p.1.idx) (l : List Row) :
    (((with_prev_same key l).map f).map Row.idx) = l.map Row.idx :=
  calc ((with_prev_same key l).map f).map Row.idx
      = (with_prev_same key l).map (Row.idx ∘ f) := by rw [List.map_map]
    _ = (with_prev_same key l).map (Row.idx ∘ Prod.fst) := by
          congr 1
          funext p
          exact hf p
    _ = ((with_prev_same key l).map Prod.fst).map Row.idx := by
          rw [List.map_map]
    _ = l.map Row.idx := by rw [with_prev_same_fst]

theorem map_map_idx (g : Row → Row) (hg : ∀ r, (g r).idx = r.idx)
    (l : List Row) : (l.map g).map Row.idx = l.map Row.idx := by
  rw [List.map_map]
  congr 1
  funext r
  exact hg r

theorem apply_lags_map_idx (l : List Row) :
    (apply_lags l).map Row.idx = l.map Row.idx := by
  unfold apply_lags
  apply map_with_prev_map_idx
  intro p
  rfl

theorem apply_headways_map_idx (l : List Row) :
    (apply_headways l).map Row.idx = l.map Row.idx := by
  unfold apply_headways
  apply map_with_prev_map_idx
  intro p
  rfl

theorem apply_route_rolling_map_idx (l : List Row) :
    (apply_route_rolling l).map Row.idx = l.map Row.idx := by
  unfold apply_route_rolling
  apply map_with_prev_map_idx
  intro p
  rfl

theorem apply_trip_rolling_map_idx (l : List Row) :
    (apply_trip_rolling l).map Row.idx = l.map Row.idx := by
  unfold apply_trip_rolling
  apply map_with_prev_map_idx
  intro p
  rfl

theorem apply_period_map_idx (l : List Row) :
    (apply_period l).map Row.idx = l.map Row.idx := by
  unfold apply_period
  rw [List.map_map]
  congr 1

theorem apply_trip_progress_map_idx (l : List Row) :
    (apply_trip_progress l).map Row.idx = l.map Row.idx := by
  unfold apply_trip_progress
  rw [List.map_map]
  congr 1
  funext r
  cases htu : r.trip_uid <;> simp [htu]

instance : IsTotal Row leByIdx := ⟨fun a b => Nat.le_total a.idx b.idx⟩

instance : IsTrans Row leByIdx := ⟨fun _ _ _ => Nat.le_trans⟩

theorem dedup_go_sublist (seen : List (Option String × Option String ×
    Option ℚ)) : ∀ l : List Row, (dedup_go seen l).Sublist l
  | [] => List.Sublist.refl []
  | r :: rs => by
      unfold dedup_go
      by_cases hm : dedup_key r ∈ seen
      · rw [if_pos hm]
        exact (dedup_go_sublist seen rs).cons r
      · rw [if_neg hm]
        exact (dedup_go_sublist (dedup_key r :: seen) rs).cons₂ r

/-- C3: (a) the time-series feature deriver returns its rows in the order of
the pandas index, so on any input whose index is ascending — as produced by
the preceding pipeline — the output row order (by original position) equals
the input row order; (b) validator, coercer and the three filter steps do
deliver an ascending index to it. -/
theorem row_order_restoration :
    (∀ t : Table, List.Sorted (· ≤ ·) (t.rows.map Row.idx) →
      (add_time_series_features t).rows.map Row.idx = t.rows.map Row.idx) ∧
    (∀ (raw : RawTable) (d : String),
      List.Sorted (· ≤ ·) (raw.rows.map RawRow.idx) →
      List.Sorted (· ≤ ·) ((add_derivated_features d
        { coerce_types raw with rows := filter_delay_outliers (deduplicate
          (dropna_keys (coerce_types raw).rows)) }).rows.map Row.idx)) := by
  constructor
  · intro t hsort
    have key : ∀ l5 : List Row,
        (l5.map Row.idx).Perm (t.rows.map Row.idx) →
        (List.insertionSort leByIdx l5).map Row.idx = t.rows.map Row.idx := by
      intro l5 hp
      have hperm : ((List.insertionSort leByIdx l5).map Row.idx).Perm
          (t.rows.map Row.idx) :=
        (((List.perm_insertionSort leByIdx l5).map Row.idx)).trans hp
      have hsorted : List.Sorted (· ≤ ·)
          ((List.insertionSort leByIdx l5).map Row.idx) :=
        List.Pairwise.map Row.idx (fun _ _ hab => hab)
          (List.sorted_insertionSort leByIdx l5)
      exact List.eq_of_perm_of_sorted hperm hsorted hsort
    have base : (apply_route_rolling (List.insertionSort leByRouteDirActual
        (apply_headways (List.insertionSort leByStopActual
          (apply_lags (List.insertionSort leByMatchActual
            t.rows)))))).map Row.idx |>.Perm (t.rows.map Row.idx) := by
      rw [apply_route_rolling_map_idx]
      refine ((List.perm_insertionSort _ _).map _).trans ?_
      rw [apply_headways_map_idx]
      refine ((List.perm_insertionSort _ _).map _).trans ?_
      rw [apply_lags_map_idx]
      exact (List.perm_insertionSort _ _).map _
    simp only [add_time_series_features]
    by_cases htu : t.hasTripUid
    · rw [if_pos htu]
      apply key
      rw [apply_trip_rolling_map_idx]
      refine ((List.perm_insertionSort _ _).map _).trans ?_
      rw [apply_trip_progress_map_idx, apply_period_map_idx]
      exact base
    · rw [if_neg htu]
      apply key
      rw [apply_period_map_idx]
      exact base
  · intro raw d hsort
    have hco : ((coerce_types raw).rows).map Row.idx =
        raw.rows.map RawRow.idx := by
      show ((raw.rows.map _).map Row.idx) = _
      rw [List.map_map]
      rfl
    have hsorted_co : List.Sorted (· ≤ ·)
        (((coerce_types raw).rows).map Row.idx) := by
      rw [hco]; exact hsort
    have hsub : (filter_delay_outliers (deduplicate
        (dropna_keys (coerce_types raw).rows))).Sublist
        ((coerce_types raw).rows) := by
      have s1 : (filter_delay_outliers (deduplicate
          (dropna_keys (coerce_types raw).rows))).Sublist
          (deduplicate (dropna_keys (coerce_types raw).rows)) :=
        List.filter_sublist _
      have s2 : (deduplicate (dropna_keys
          (coerce_types raw).rows)).Sublist
          (dropna_keys (coerce_types raw).rows) :=
        dedup_go_sublist [] _
      have s3 : (dropna_keys (coerce_types raw).rows).Sublist
          ((coerce_types raw).rows) := List.filter_sublist _
      exact s1.trans (s2.trans s3)
    have hfiltered : List.Sorted (· ≤ ·) ((filter_delay_outliers (deduplicate
        (dropna_keys (coerce_types raw).rows))).map Row.idx) :=
      List.Pairwise.sublist (hsub.map Row.idx) hsorted_co
    have hder : ((add_derivated_features d
        { coerce_types raw with rows := filter_delay_outliers (deduplicate
          (dropna_keys (coerce_types raw).rows)) }).rows.map Row.idx) =
        ((filter_delay_outliers (deduplicate
          (dropna_keys (coerce_types raw).rows))).map Row.idx) := by
      unfold add_derivated_features
      apply map_map_idx
      intro r
      rfl
    rw [hder]
    exact hfiltered

/-- A deriver input table with ascending index 0, 1, 2. -/
def c3_table : Table :=
  { hasTripUid := false,
    rows := [c6_row 0 "m1" 130, c6_row 1 "m1" 100, c6_row 2 "m2" 110] }

/-- Witness for C3: the feature deriver restores the index order of a
concrete table whose internal sorts genuinely permute the rows. -/
theorem row_order_restoration_witness :
    (add_time_series_features c3_table).rows.map Row.idx =
      c3_table.rows.map Row.idx :=
  row_order_restoration.1 c3_table (by decide)

/-! ### C9 — trip progress -/

instance : Std.Antisymm (fun (a b : ℚ) => a ≤ b) :=
  ⟨@fun _ _ h1 h2 => le_antisymm h1 h2⟩

theorem min?_perm {l1 l2 : List ℚ} (h : l1.Perm l2) : l1.min? = l2.min? := by
  have hiff : ∀ (l : List ℚ) (a : ℚ),
      l.min? = some a ↔ a ∈ l ∧ ∀ b ∈ l, a ≤ b := by
    intro l a
    exact List.min?_eq_some_iff (fun x => le_refl x)
      (fun x y => min_choice x y) (fun x y z => le_min_iff)
  cases h1 : l1.min? with
  | none =>
      rw [List.min?_eq_none_iff] at h1
      subst h1
      rw [List.Perm.eq_nil h.symm]
      rfl
  | some a =>
      obtain ⟨hmem, hle⟩ := (hiff l1 a).mp h1
      cases h2 : l2.min? with
      | none =>
          rw [List.min?_eq_none_iff] at h2
          subst h2
          exact absurd (h.mem_iff.mp hmem) (List.not_mem_nil a)
      | some b =>
          obtain ⟨hmem2, hle2⟩ := (hiff l2 b).mp h2
          have hab : a ≤ b := hle b (h.mem_iff.mpr hmem2)
          have hba : b ≤ a := hle2 a (h.mem_iff.mp hmem)
          rw [le_antisymm hab hba]

theorem max?_perm {l1 l2 : List ℚ} (h : l1.Perm l2) : l1.max? = l2.max? := by
  have hiff : ∀ (l : List ℚ) (a : ℚ),
      l.max? = some a ↔ a ∈ l ∧ ∀ b ∈ l, b ≤ a := by
    intro l a
    exact List.max?_eq_some_iff (fun x => le_refl x)
      (fun x y => max_choice x y) (fun x y z => max_le_iff)
  cases h1 : l1.max? with
  | none =>
      rw [List.max?_eq_none_iff] at h1
      subst h1
      rw [List.Perm.eq_nil h.symm]
      rfl
  | some a =>
      obtain ⟨hmem, hle⟩ := (hiff l1 a).mp h1
      cases h2 : l2.max? with
      | none =>
          rw [List.max?_eq_none_iff] at h2
          subst h2
          exact absurd (h.mem_iff.mp hmem) (List.not_mem_nil a)
      | some b =>
          obtain ⟨hmem2, hle2⟩ := (hiff l2 b).mp h2
          have hab : b ≤ a := hle b (h.mem_iff.mpr hmem2)
          have hba : a ≤ b := hle2 a (h.mem_iff.mp hmem)
          rw [le_antisymm hba hab]

/-- The only fields of a row the trip-group min/max read. -/
def trip_sched_of (r : Row) : Option String × Option ℚ :=
  (r.trip_uid, r.scheduled_seconds)

theorem group_min_sched_min? (l : List Row) (k : String) :
    group_min_sched l k =
      ((l.filter (fun r => decide (r.trip_uid = some k))).filterMap
        (fun r => r.scheduled_seconds)).min? := by
  unfold group_min_sched
  cases (l.filter (fun r => decide (r.trip_uid = some k))).filterMap
      (fun r => r.scheduled_seconds) <;> rfl

theorem group_max_sched_max? (l : List Row) (k : String) :
    group_max_sched l k =
      ((l.filter (fun r => decide (r.trip_uid = some k))).filterMap
        (fun r => r.scheduled_seconds)).max? := by
  unfold group_max_sched
  cases (l.filter (fun r => decide (r.trip_uid = some k))).filterMap
      (fun r => r.scheduled_seconds) <;> rfl

theorem group_vals_pairs (l : List Row) (k : String) :
    (l.filter (fun r => decide (r.trip_uid = some k))).filterMap
      (fun r => r.scheduled_seconds) =
    (l.map trip_sched_of).filterMap
      (fun p => if p.1 = some k then p.2 else Option.none) := by
  induction l with
  | nil => rfl
  | cons r rs ih =>
      simp only [List.filter_cons, List.map_cons, List.filterMap_cons]
      by_cases htu : r.trip_uid = some k
      · cases hs : r.scheduled_seconds <;>
          simp [trip_sched_of, htu, hs, ih]
      · simp [trip_sched_of, htu, ih]

theorem group_min_sched_pairs_perm (l1 l2 : List Row) (k : String)
    (h : (l1.map trip_sched_of).Perm (l2.map trip_sched_of)) :
    group_min_sched l1 k = group_min_sched l2 k := by
  rw [group_min_sched_min?, group_min_sched_min?, group_vals_pairs,
    group_vals_pairs]
  exact min?_perm (h.filterMap _)

theorem group_max_sched_pairs_perm (l1 l2 : List Row) (k : String)
    (h : (l1.map trip_sched_of).Perm (l2.map trip_sched_of)) :
    group_max_sched l1 k = group_max_sched l2 k := by
  rw [group_max_sched_max?, group_max_sched_max?, group_vals_pairs,
    group_vals_pairs]
  exact max?_perm (h.filterMap _)

theorem apply_trip_rolling_pairs (l : List Row) :
    (apply_trip_rolling l).map trip_sched_of = l.map trip_sched_of :=
  calc (apply_trip_rolling l).map trip_sched_of
      = (with_prev_same (fun r => r.trip_uid) l).map
          (trip_sched_of ∘ (fun p =>
            { p.1 with rolling_mean_delay_trip :=
                rolling_shift_mean 3 (fun r => r.delay_seconds) p.2 })) := by
        unfold apply_trip_rolling
        rw [List.map_map]
    _ = (with_prev_same (fun r => r.trip_uid) l).map
          (trip_sched_of ∘ Prod.fst) := rfl
    _ = ((with_prev_same (fun r => r.trip_uid) l).map Prod.fst).map
          trip_sched_of := by rw [List.map_map]
    _ = l.map trip_sched_of := by rw [with_prev_same_fst]

theorem apply_trip_progress_pairs (l : List Row) :
    (apply_trip_progress l).map trip_sched_of = l.map trip_sched_of := by
  unfold apply_trip_progress
  rw [List.map_map]
  congr 1
  funext r
  simp only [Function.comp_apply]
  cases htu : r.trip_uid <;> simp [trip_sched_of, htu]

theorem sub_val_right_none (x : Option ℚ) :
    sub_val x Option.none = Option.none := by cases x <;> rfl

theorem div_val_right_none (x : Option ℚ) :
    div_val x Option.none = Option.none := by cases x <;> rfl

theorem div_val_left_none (y : Option ℚ) :
    div_val Option.none y = Option.none := by cases y <;> rfl

/-- What the trip-progress stage guarantees, relative to the row list it
ran on. -/
theorem apply_trip_progress_spec (l : List Row) :
    ∀ r' ∈ apply_trip_progress l,
      (r'.trip_uid = Option.none → r'.trip_progress = Option.none) ∧
      (∀ k : String, r'.trip_uid = some k →
        r'.trip_progress = div_val
          (sub_val r'.scheduled_seconds (group_min_sched l k))
          (replace_zero_na (sub_val (group_max_sched l k)
            (group_min_sched l k)))) := by
  intro r' h
  obtain ⟨r, hr, rfl⟩ := List.mem_map.mp h
  cases htu : r.trip_uid with
  | none =>
      constructor
      · intro
        simp [htu]
      · intro k hk
        simp [htu] at hk
  | some k0 =>
      constructor
      · intro hnone
        simp [htu] at hnone
      · intro k hk
        simp only [htu] at hk ⊢
        have hkk : k0 = k := by
          simpa using hk
        subst hkk
        rfl

theorem add_time_series_rows_of_trip (t : Table)
    (htu : t.hasTripUid = true) :
    (add_time_series_features t).rows = List.insertionSort leByIdx
      (apply_trip_rolling (List.insertionSort leByTripSched
        (apply_trip_progress (apply_period (apply_route_rolling
          (List.insertionSort leByRouteDirActual (apply_headways
            (List.insertionSort leByStopActual (apply_lags
              (List.insertionSort leByMatchActual t.rows)))))))))) := by
  simp [add_time_series_features, htu]

/-- One row of the degenerate trip example: one trip "T", every stop
scheduled at second 100. -/
def c9_row (i : ℕ) (mk stop : String) : Row :=
  { idx := i, match_key := some mk, route_id := some "A",
    stop_id := some stop, trip_uid := some "T", is_unscheduled := false,
    scheduled_seconds := some 100, actual_seconds := Option.none,
    delay_seconds := Option.none, delay_minutes := Option.none }

/-- A trip_uid group with a single distinct scheduled_seconds value. -/
def c9_table : Table :=
  { hasTripUid := true,
    rows := [c9_row 0 "m1" "S1N", c9_row 1 "m2" "S2N"] }

/-- C9: when the trip_uid column is present, every enriched row's
trip_progress is (scheduled_seconds - min)/(max - min) over its trip_uid
group with the zero or missing duration guarded to null (rows outside every
group — null trip_uid — get null); a group whose min and max scheduled
seconds coincide yields null for all its rows. -/
theorem out_pairs_perm (t : Table) (htu : t.hasTripUid = true) :
    ((add_time_series_features t).rows.map trip_sched_of).Perm
      ((apply_period (apply_route_rolling
        (List.insertionSort leByRouteDirActual (apply_headways
          (List.insertionSort leByStopActual (apply_lags
            (List.insertionSort leByMatchActual t.rows))))))).map
        trip_sched_of) := by
  rw [add_time_series_rows_of_trip t htu]
  refine ((List.perm_insertionSort _ _).map _).trans ?_
  rw [apply_trip_rolling_pairs]
  refine ((List.perm_insertionSort _ _).map _).trans ?_
  rw [apply_trip_progress_pairs]

/-- C9: when the trip_uid column is present, every enriched row's
trip_progress is (scheduled_seconds - min)/(max - min) over its trip_uid
group with the zero or missing duration guarded to null (rows outside every
group — null trip_uid — get null); a group whose min and max scheduled
seconds coincide yields null for all its rows. -/
theorem trip_progress_characterisation :
    (∀ (t : Table) (r' : Row), t.hasTripUid = true →
      r' ∈ (add_time_series_features t).rows →
      (r'.trip_uid = Option.none → r'.trip_progress = Option.none) ∧
      (∀ k : String, r'.trip_uid = some k →
        (r'.trip_progress = div_val
          (sub_val r'.scheduled_seconds
            (group_min_sched (add_time_series_features t).rows k))
          (replace_zero_na (sub_val
            (group_max_sched (add_time_series_features t).rows k)
            (group_min_sched (add_time_series_features t).rows k)))) ∧
        (group_min_sched (add_time_series_features t).rows k =
            group_max_sched (add_time_series_features t).rows k →
          r'.trip_progress = Option.none))) ∧
    ((add_time_series_features c9_table).rows.map
        (fun r => (r.trip_uid, r.trip_progress))) =
      [(some "T", Option.none), (some "T", Option.none)] := by
  constructor
  · intro t r' htu hmem
    rw [add_time_series_rows_of_trip t htu, mem_insertionSort] at hmem
    obtain ⟨r1, hr1, _, _, _, _, htu1, hsched1, htp1⟩ :=
      mem_apply_trip_rolling hmem
    rw [mem_insertionSort] at hr1
    have hspec := apply_trip_progress_spec _ r1 hr1
    have hmin := fun k : String =>
      group_min_sched_pairs_perm _ _ k (out_pairs_perm t htu)
    have hmax := fun k : String =>
      group_max_sched_pairs_perm _ _ k (out_pairs_perm t htu)
    constructor
    · intro hnone
      rw [htp1]
      exact hspec.1 (htu1 ▸ hnone)
    · intro k hk
      have hk1 : r1.trip_uid = some k := htu1 ▸ hk
      have hf := hspec.2 k hk1
      constructor
      · rw [htp1, hf, hsched1, hmin k, hmax k]
      · intro heq
        rw [htp1, hf, ← hmin k, ← hmax k, heq]
        cases hmx : group_max_sched (add_time_series_features t).rows k with
        | none =>
            rw [sub_val_right_none, sub_val_right_none]
            rfl
        | some m =>
            rw [show sub_val (some m) (some m) = some 0 by simp [sub_val]]
            rw [show replace_zero_na (some 0) = Option.none from rfl]
            exact div_val_right_none _
  · decide

/-- The enriched row the feature deriver produces for the first row of
c9_table. -/
def c9_out : Row := { c9_row 0 "m1" "S1N" with is_peak := some 0 }

/-- Witness for C9: the trip-progress characterisation applied to a concrete
enriched row of the degenerate one-value trip. -/
theorem trip_progress_characterisation_witness :
    (c9_out.trip_uid = Option.none → c9_out.trip_progress = Option.none) ∧
    (∀ k : String, c9_out.trip_uid = some k →
      (c9_out.trip_progress = div_val
        (sub_val c9_out.scheduled_seconds
          (group_min_sched (add_time_series_features c9_table).rows k))
        (replace_zero_na (sub_val
          (group_max_sched (add_time_series_features c9_table).rows k)
          (group_min_sched (add_time_series_features c9_table).rows k)))) ∧
      (group_min_sched (add_time_series_features c9_table).rows k =
          group_max_sched (add_time_series_features c9_table).rows k →
        c9_out.trip_progress = Option.none)) :=
  trip_progress_characterisation.1 c9_table c9_out rfl (by decide)

end GtfsTransform
